import Mathlib

/-!
Verification development for the chechel repository: two near-duplicate
full-stack CRUD applications (a coworking-space booking platform and a
book-sharing platform). The repository sources available here are the
frontend single-page applications; the backend booking core (conflict
checker and transition engine) is described by the specification and is
modelled below from its words. Frontend behaviour (route guards, auth
context, request construction, date formatting) is embedded directly from
the JSX sources.
-/

namespace Chechel

/-! ## Backend booking core (spec section 3 and 4) -/

/-- Reservation status, spec section 3: status is active or cancelled. -/
inductive RStatus where
  | active
  | cancelled
deriving DecidableEq, Repr

/-- Modelled from the spec: the Reservation record of section 3 for the
coworking variant, `{id, resource_id, requester_id, start_time, end_time,
status}`.  Times are instants on a discrete timeline (Nat). -/
structure Reservation where
  id : Nat
  resource_id : Nat
  requester_id : Nat
  start_time : Nat
  end_time : Nat
  status : RStatus
deriving DecidableEq, Repr

/-- Modelled from the spec: the coworking Resource record of section 3
restricted to the fields the transition engine reads. -/
structure Resource where
  id : Nat
  owner_id : Nat
deriving DecidableEq, Repr

/-- The actor performing a transition: an id and a role (glossary). -/
structure Actor where
  id : Nat
  isAdmin : Bool
deriving DecidableEq, Repr

/-- Modelled from the spec: the shared state the transition engine acts
on — the resource registry, the reservation store, and a fresh-id
counter for inserts. -/
structure CoState where
  resources : List Resource
  reservations : List Reservation
  nextId : Nat
deriving DecidableEq, Repr

/-- Result of the conflict checker, spec section 4.3. -/
inductive CheckResult where
  | ok
  | conflict
deriving DecidableEq, Repr

/-- Error taxonomy of spec section 7. -/
inductive TransitionError where
  | notFound
  | invalidRange
  | scheduleConflict
  | forbidden
  | invalidState
  | alreadyTaken
  | selfTake
deriving DecidableEq, Repr

/-- Half-open interval overlap test of spec section 4.3:
`start < other.end AND other.start < end`. -/
def overlaps (s e : Nat) (r : Reservation) : Bool :=
  decide (s < r.end_time) && decide (r.start_time < e)

/-- Modelled from the spec: section 4.2 `listActiveByResource` combined
with the exclusion of 4.3 — the active reservations of a resource,
leaving out `excluding` when given. -/
def activeFor (resvs : List Reservation) (rid : Nat) (excluding : Option Nat) :
    List Reservation :=
  resvs.filter (fun r =>
    decide (r.status = RStatus.active) && decide (r.resource_id = rid) &&
      decide (excluding ≠ some r.id))

/-- Modelled from the spec: section 4.3 `checkOverlap` — Conflict when
some active reservation of the resource, other than the excluded one,
overlaps the proposed half-open range. -/
def checkOverlap (resvs : List Reservation) (rid s e : Nat)
    (excluding : Option Nat) : CheckResult :=
  if (activeFor resvs rid excluding).any (overlaps s e) then
    CheckResult.conflict
  else
    CheckResult.ok

/-- Modelled from the spec: section 4.4 `book` — validate `start < end`,
require the resource to exist, run `checkOverlap` with no exclusion, and
on OK insert an active reservation with a fresh id. -/
def book (st : CoState) (rid uid s e : Nat) :
    Except TransitionError Nat × CoState :=
  if e ≤ s then
    (Except.error TransitionError.invalidRange, st)
  else if st.resources.any (fun r => r.id == rid) then
    match checkOverlap st.reservations rid s e none with
    | CheckResult.conflict => (Except.error TransitionError.scheduleConflict, st)
    | CheckResult.ok =>
        (Except.ok st.nextId,
          { st with
              reservations := st.reservations ++
                [Reservation.mk st.nextId rid uid s e RStatus.active],
              nextId := st.nextId + 1 })
  else
    (Except.error TransitionError.notFound, st)

/-- The per-entry store update performed by a successful cancel: the
matched reservation gets status cancelled, every other entry is kept. -/
def cancelUpd (resvId : Nat) (q : Reservation) : Reservation :=
  if q.id = resvId then { q with status := RStatus.cancelled } else q

/-- Modelled from the spec: section 4.4 `cancel` — actor must be the
original requester or an admin, legal only from active, sets status to
cancelled without deleting the record. -/
def cancel (st : CoState) (resvId : Nat) (actor : Actor) :
    Except TransitionError Unit × CoState :=
  match st.reservations.find? (fun r => r.id == resvId) with
  | none => (Except.error TransitionError.notFound, st)
  | some r =>
      if actor.id = r.requester_id ∨ actor.isAdmin = true then
        match r.status with
        | RStatus.cancelled => (Except.error TransitionError.invalidState, st)
        | RStatus.active =>
            (Except.ok (),
              { st with
                  reservations := st.reservations.map (cancelUpd resvId) })
      else
        (Except.error TransitionError.forbidden, st)

/-- The per-entry store update performed by a successful move: the
matched reservation gets the new range, every other entry is kept. -/
def moveUpd (resvId ns ne : Nat) (q : Reservation) : Reservation :=
  if q.id = resvId then { q with start_time := ns, end_time := ne } else q

/-- Modelled from the spec: section 4.4 `move` — legal only from active,
actor ownership check as in cancel, validate `new_start < new_end`, run
`checkOverlap` with `excluding_id = reservation_id`; on OK update the
range, on Conflict leave the reservation unchanged. -/
def move (st : CoState) (resvId : Nat) (actor : Actor) (ns ne : Nat) :
    Except TransitionError Unit × CoState :=
  match st.reservations.find? (fun r => r.id == resvId) with
  | none => (Except.error TransitionError.notFound, st)
  | some r =>
      if r.status = RStatus.active then
        if actor.id = r.requester_id ∨ actor.isAdmin = true then
          if ne ≤ ns then
            (Except.error TransitionError.invalidRange, st)
          else
            match checkOverlap st.reservations r.resource_id ns ne (some resvId) with
            | CheckResult.conflict =>
                (Except.error TransitionError.scheduleConflict, st)
            | CheckResult.ok =>
                (Except.ok (),
                  { st with
                      reservations :=
                        st.reservations.map (moveUpd resvId ns ne) })
        else
          (Except.error TransitionError.forbidden, st)
      else
        (Except.error TransitionError.invalidState, st)

/-- Modelled from the spec: the book-variant Resource of section 3,
restricted to the fields the take transition reads and writes. -/
structure BookItem where
  id : Nat
  owner_id : Nat
  is_available : Bool
  taken_by : Option Nat
deriving DecidableEq, Repr

/-- The per-entry store update performed by a successful take: the
matched book becomes unavailable and records its taker. -/
def takeUpd (bid uid : Nat) (q : BookItem) : BookItem :=
  if q.id = bid then { q with is_available := false, taken_by := some uid }
  else q

/-- Modelled from the spec: section 4.4 `take` — legal only when
`is_available = true` and `requester_id` differs from `owner_id`; sets
`is_available = false` and `taken_by = requester_id`; terminal. -/
def take (bks : List BookItem) (bid uid : Nat) :
    Except TransitionError Unit × List BookItem :=
  match bks.find? (fun b => b.id == bid) with
  | none => (Except.error TransitionError.notFound, bks)
  | some b =>
      if b.is_available = false then
        (Except.error TransitionError.alreadyTaken, bks)
      else if uid = b.owner_id then
        (Except.error TransitionError.selfTake, bks)
      else
        (Except.ok (), bks.map (takeUpd bid uid))

/-! ## Invariant machinery for the booking core -/

/-- No two active reservations of the same resource (distinct entries,
identified by their ids) have overlapping half-open intervals. -/
def overlapFree (resvs : List Reservation) : Prop :=
  ∀ r1, r1 ∈ resvs → ∀ r2, r2 ∈ resvs →
    r1.status = RStatus.active → r2.status = RStatus.active →
    r1.resource_id = r2.resource_id → r1.id ≠ r2.id →
    ¬ (r1.start_time < r2.end_time ∧ r2.start_time < r1.end_time)

/-- Well-formedness of the store: every reservation id is below the
fresh-id counter and ids are pairwise distinct. -/
def wfState (st : CoState) : Prop :=
  (∀ r, r ∈ st.reservations → r.id < st.nextId) ∧
    st.reservations.Pairwise (fun a b => a.id ≠ b.id)

/-- A sequence element of book and move requests. -/
inductive Op where
  | bookOp (rid uid s e : Nat)
  | moveOp (resvId : Nat) (actor : Actor) (ns ne : Nat)
deriving DecidableEq, Repr

/-- Apply one transition request, keeping only the resulting state. -/
def applyOp (st : CoState) : Op → CoState
  | Op.bookOp rid uid s e => (book st rid uid s e).2
  | Op.moveOp resvId actor ns ne => (move st resvId actor ns ne).2

/-- Run a sequence of transition requests from a starting state. -/
def runOps (st : CoState) : List Op → CoState
  | [] => st
  | op :: rest => runOps (applyOp st op) rest

/-! ## Conflict checker characterization -/

theorem mem_activeFor {resvs : List Reservation} {rid : Nat} {excl : Option Nat}
    {r : Reservation} :
    r ∈ activeFor resvs rid excl ↔
      r ∈ resvs ∧ r.status = RStatus.active ∧ r.resource_id = rid ∧
        excl ≠ some r.id := by
  simp [activeFor, List.mem_filter, and_assoc]

theorem checkOverlap_eq_conflict_iff (resvs : List Reservation) (rid s e : Nat)
    (excl : Option Nat) :
    checkOverlap resvs rid s e excl = CheckResult.conflict ↔
      ∃ r, r ∈ resvs ∧ r.status = RStatus.active ∧ r.resource_id = rid ∧
        excl ≠ some r.id ∧ s < r.end_time ∧ r.start_time < e := by
  unfold checkOverlap
  by_cases h : (activeFor resvs rid excl).any (overlaps s e) = true
  · rw [if_pos h]
    simp only [true_iff]
    rcases List.any_eq_true.mp h with ⟨r, hr, hov⟩
    rcases mem_activeFor.mp hr with ⟨hmem, hst, hres, hexcl⟩
    have hov2 := hov
    unfold overlaps at hov2
    simp only [Bool.and_eq_true, decide_eq_true_eq] at hov2
    exact ⟨r, hmem, hst, hres, hexcl, hov2.1, hov2.2⟩
  · rw [if_neg h]
    constructor
    · intro hc
      exact absurd hc (by simp)
    · rintro ⟨r, hmem, hst, hres, hexcl, h1, h2⟩
      exfalso
      apply h
      refine List.any_eq_true.mpr ⟨r, mem_activeFor.mpr ⟨hmem, hst, hres, hexcl⟩, ?_⟩
      unfold overlaps
      simp [h1, h2]

theorem checkOverlap_eq_ok_iff (resvs : List Reservation) (rid s e : Nat)
    (excl : Option Nat) :
    checkOverlap resvs rid s e excl = CheckResult.ok ↔
      ∀ r, r ∈ resvs → r.status = RStatus.active → r.resource_id = rid →
        excl ≠ some r.id → ¬ (s < r.end_time ∧ r.start_time < e) := by
  have hcases : checkOverlap resvs rid s e excl = CheckResult.ok ↔
      ¬ checkOverlap resvs rid s e excl = CheckResult.conflict := by
    unfold checkOverlap
    by_cases h : (activeFor resvs rid excl).any (overlaps s e) = true
    · rw [if_pos h]; simp
    · rw [if_neg h]; simp
  rw [hcases, checkOverlap_eq_conflict_iff]
  constructor
  · intro hno r hmem hst hres hexcl hov
    exact hno ⟨r, hmem, hst, hres, hexcl, hov.1, hov.2⟩
  · rintro hall ⟨r, hmem, hst, hres, hexcl, h1, h2⟩
    exact hall r hmem hst hres hexcl ⟨h1, h2⟩

/-! ## Preservation of the non-overlap invariant -/

theorem moveUpd_id (resvId ns ne : Nat) (q : Reservation) :
    (moveUpd resvId ns ne q).id = q.id := by
  unfold moveUpd; split <;> rfl

theorem moveUpd_status (resvId ns ne : Nat) (q : Reservation) :
    (moveUpd resvId ns ne q).status = q.status := by
  unfold moveUpd; split <;> rfl

theorem moveUpd_resource (resvId ns ne : Nat) (q : Reservation) :
    (moveUpd resvId ns ne q).resource_id = q.resource_id := by
  unfold moveUpd; split <;> rfl

theorem moveUpd_of_match (resvId ns ne : Nat) (q : Reservation)
    (h : q.id = resvId) :
    moveUpd resvId ns ne q = { q with start_time := ns, end_time := ne } := by
  unfold moveUpd; rw [if_pos h]

theorem moveUpd_of_other (resvId ns ne : Nat) (q : Reservation)
    (h : q.id ≠ resvId) : moveUpd resvId ns ne q = q := by
  unfold moveUpd; rw [if_neg h]

theorem pairwise_id_inj {l : List Reservation}
    (h : l.Pairwise (fun a b => a.id ≠ b.id)) :
    ∀ r1, r1 ∈ l → ∀ r2, r2 ∈ l → r1.id = r2.id → r1 = r2 := by
  intro r1 h1 r2 h2 hid
  by_contra hne
  exact h.forall (fun a b hab => Ne.symm hab) h1 h2 hne hid

theorem book_preserves (st : CoState) (rid uid s e : Nat)
    (hwf : wfState st) (hof : overlapFree st.reservations) :
    wfState (book st rid uid s e).2 ∧
      overlapFree (book st rid uid s e).2.reservations := by
  unfold book
  by_cases h1 : e ≤ s
  · rw [if_pos h1]; exact ⟨hwf, hof⟩
  · rw [if_neg h1]
    by_cases h2 : st.resources.any (fun r => r.id == rid) = true
    · rw [if_pos h2]
      cases hco : checkOverlap st.reservations rid s e none with
      | conflict => exact ⟨hwf, hof⟩
      | ok =>
          obtain ⟨hbound, hdist⟩ := hwf
          refine ⟨⟨?_, ?_⟩, ?_⟩
          · intro r hr
            simp only [List.mem_append, List.mem_singleton] at hr
            rcases hr with hr | hr
            · exact Nat.lt_succ_of_lt (hbound r hr)
            · rw [hr]; exact Nat.lt_succ_self _
          · rw [List.pairwise_append]
            refine ⟨hdist, List.pairwise_singleton _ _, ?_⟩
            intro a ha b hb
            simp only [List.mem_singleton] at hb
            subst hb
            exact Nat.ne_of_lt (hbound a ha)
          · have hok := (checkOverlap_eq_ok_iff st.reservations rid s e none).mp hco
            intro r1 hm1 r2 hm2 ha1 ha2 hres hid
            simp only [List.mem_append, List.mem_singleton] at hm1 hm2
            rcases hm1 with hm1 | hm1 <;> rcases hm2 with hm2 | hm2
            · exact hof r1 hm1 r2 hm2 ha1 ha2 hres hid
            · subst hm2
              intro hov
              exact hok r1 hm1 ha1 hres (by simp) ⟨hov.2, hov.1⟩
            · subst hm1
              intro hov
              exact hok r2 hm2 ha2 hres.symm (by simp) ⟨hov.1, hov.2⟩
            · subst hm1; subst hm2; exact absurd rfl hid
    · rw [if_neg h2]; exact ⟨hwf, hof⟩

theorem move_preserves (st : CoState) (resvId : Nat) (actor : Actor)
    (ns ne : Nat) (hwf : wfState st) (hof : overlapFree st.reservations) :
    wfState (move st resvId actor ns ne).2 ∧
      overlapFree (move st resvId actor ns ne).2.reservations := by
  unfold move
  cases hfind : st.reservations.find? (fun r => r.id == resvId) with
  | none => exact ⟨hwf, hof⟩
  | some r =>
      dsimp only
      have hrmem : r ∈ st.reservations := List.mem_of_find?_eq_some hfind
      have hrid : r.id = resvId := by
        have := List.find?_some hfind
        simpa using this
      by_cases hact : r.status = RStatus.active
      · rw [if_pos hact]
        by_cases hauth : actor.id = r.requester_id ∨ actor.isAdmin = true
        · rw [if_pos hauth]
          by_cases hrange : ne ≤ ns
          · rw [if_pos hrange]; exact ⟨hwf, hof⟩
          · rw [if_neg hrange]
            cases hco :
                checkOverlap st.reservations r.resource_id ns ne (some resvId) with
            | conflict => exact ⟨hwf, hof⟩
            | ok =>
                obtain ⟨hbound, hdist⟩ := hwf
                have hinj := pairwise_id_inj hdist
                have hok :=
                  (checkOverlap_eq_ok_iff st.reservations r.resource_id ns ne
                    (some resvId)).mp hco
                refine ⟨⟨?_, ?_⟩, ?_⟩
                · intro q hq
                  rcases List.mem_map.mp hq with ⟨q0, hq0, rfl⟩
                  rw [moveUpd_id]
                  exact hbound q0 hq0
                · rw [List.pairwise_map]
                  refine hdist.imp ?_
                  intro a b hab
                  rw [moveUpd_id, moveUpd_id]
                  exact hab
                · intro r1 hm1 r2 hm2 ha1 ha2 hres hid
                  rcases List.mem_map.mp hm1 with ⟨q1, hq1, rfl⟩
                  rcases List.mem_map.mp hm2 with ⟨q2, hq2, rfl⟩
                  rw [moveUpd_status] at ha1 ha2
                  rw [moveUpd_resource, moveUpd_resource] at hres
                  rw [moveUpd_id, moveUpd_id] at hid
                  by_cases c1 : q1.id = resvId <;> by_cases c2 : q2.id = resvId
                  · exact absurd (c1.trans c2.symm) hid
                  · have hq1r : q1 = r := hinj q1 hq1 r hrmem (by rw [c1, hrid])
                    rw [moveUpd_of_match resvId ns ne q1 c1,
                      moveUpd_of_other resvId ns ne q2 c2]
                    intro hov
                    refine hok q2 hq2 ha2 ?_ ?_ ⟨hov.1, hov.2⟩
                    · rw [← hres, hq1r]
                    · intro hcontra
                      exact c2 (Option.some.inj hcontra).symm
                  · have hq2r : q2 = r := hinj q2 hq2 r hrmem (by rw [c2, hrid])
                    rw [moveUpd_of_other resvId ns ne q1 c1,
                      moveUpd_of_match resvId ns ne q2 c2]
                    intro hov
                    refine hok q1 hq1 ha1 ?_ ?_ ⟨hov.2, hov.1⟩
                    · rw [hres, hq2r]
                    · intro hcontra
                      exact c1 (Option.some.inj hcontra).symm
                  · rw [moveUpd_of_other resvId ns ne q1 c1,
                      moveUpd_of_other resvId ns ne q2 c2]
                    exact hof q1 hq1 q2 hq2 ha1 ha2 hres hid
        · rw [if_neg hauth]; exact ⟨hwf, hof⟩
      · rw [if_neg hact]; exact ⟨hwf, hof⟩

theorem applyOp_preserves (st : CoState) (op : Op)
    (hwf : wfState st) (hof : overlapFree st.reservations) :
    wfState (applyOp st op) ∧ overlapFree (applyOp st op).reservations := by
  cases op with
  | bookOp rid uid s e => exact book_preserves st rid uid s e hwf hof
  | moveOp resvId actor ns ne => exact move_preserves st resvId actor ns ne hwf hof

theorem runOps_preserves (ops : List Op) (st : CoState)
    (hwf : wfState st) (hof : overlapFree st.reservations) :
    wfState (runOps st ops) ∧ overlapFree (runOps st ops).reservations := by
  induction ops generalizing st with
  | nil => exact ⟨hwf, hof⟩
  | cons op rest ih =>
      have h := applyOp_preserves st op hwf hof
      exact ih (applyOp st op) h.1 h.2

/-- C1: for every resource, after any sequence of book and move
operations (applied atomically, per the serialization requirement of
spec section 5), the set of reservations with status active never
contains two entries whose half-open start-to-end intervals overlap. -/
theorem booking_overlap_invariant (resources : List Resource) (ops : List Op) :
    overlapFree (runOps (CoState.mk resources [] 0) ops).reservations := by
  have hwf : wfState (CoState.mk resources [] 0) := by
    constructor
    · intro r hr
      exact absurd hr (List.not_mem_nil r)
    · exact List.Pairwise.nil
  have hof : overlapFree (CoState.mk resources [] 0).reservations := by
    intro r1 h1
    exact absurd h1 (List.not_mem_nil r1)
  exact (runOps_preserves ops (CoState.mk resources [] 0) hwf hof).2

/-- C2: checkOverlap returns Conflict exactly when some active
reservation of the resource, other than the excluded id, satisfies
start < other.end and other.start < end; when there are no active
reservations to scan the answer is OK; and booking 10:00-11:00 then
11:00-12:00 on the same resource (minutes since midnight) both succeed
because a reservation ending exactly when another starts is not a
conflict. -/
theorem checkOverlap_conflict_characterization :
    (∀ (resvs : List Reservation) (rid s e : Nat) (excl : Option Nat),
        checkOverlap resvs rid s e excl = CheckResult.conflict ↔
          ∃ r, r ∈ resvs ∧ r.status = RStatus.active ∧ r.resource_id = rid ∧
            excl ≠ some r.id ∧ s < r.end_time ∧ r.start_time < e) ∧
    (∀ (resvs : List Reservation) (rid s e : Nat) (excl : Option Nat),
        activeFor resvs rid excl = [] →
          checkOverlap resvs rid s e excl = CheckResult.ok) ∧
    ((book (CoState.mk [Resource.mk 1 7] [] 0) 1 10 600 660).1 =
        Except.ok 0 ∧
      (book (book (CoState.mk [Resource.mk 1 7] [] 0) 1 10 600 660).2
          1 20 660 720).1 = Except.ok 1) := by
  refine ⟨checkOverlap_eq_conflict_iff, ?_, ?_, ?_⟩
  · intro resvs rid s e excl hemp
    unfold checkOverlap
    rw [hemp]
    rfl
  · rfl
  · rfl

/-- Witness for C2: the empty store yields OK at concrete arguments. -/
theorem checkOverlap_conflict_characterization_witness :
    checkOverlap [] 5 3 7 none = CheckResult.ok :=
  checkOverlap_conflict_characterization.2.1 [] 5 3 7 none rfl

/-- C3: a book request with end less than or equal to start fails with
InvalidRange, whatever the stored reservations are, and leaves the state
unchanged; when start < end, the resource exists and checkOverlap says
OK, an active reservation is inserted; in every other case no mutation
happens. -/
theorem book_validation_and_insertion :
    (∀ (st : CoState) (rid uid s e : Nat), e ≤ s →
        book st rid uid s e = (Except.error TransitionError.invalidRange, st)) ∧
    (∀ (st : CoState) (rid uid s e : Nat), s < e →
        (∃ r, r ∈ st.resources ∧ r.id = rid) →
        checkOverlap st.reservations rid s e none = CheckResult.ok →
        book st rid uid s e =
          (Except.ok st.nextId,
            CoState.mk st.resources
              (st.reservations ++
                [Reservation.mk st.nextId rid uid s e RStatus.active])
              (st.nextId + 1))) ∧
    (∀ (st : CoState) (rid uid s e : Nat),
        ¬ (s < e ∧ (∃ r, r ∈ st.resources ∧ r.id = rid) ∧
            checkOverlap st.reservations rid s e none = CheckResult.ok) →
        (book st rid uid s e).2 = st) := by
  refine ⟨?_, ?_, ?_⟩
  · intro st rid uid s e h
    unfold book
    rw [if_pos h]
  · intro st rid uid s e hse ⟨r, hr, hid⟩ hco
    unfold book
    have hany : (st.resources.any fun q => q.id == rid) = true :=
      List.any_eq_true.mpr ⟨r, hr, beq_iff_eq.mpr hid⟩
    rw [if_neg (not_le.mpr hse), if_pos hany, hco]
  · intro st rid uid s e hn
    unfold book
    by_cases h1 : e ≤ s
    · rw [if_pos h1]
    · rw [if_neg h1]
      by_cases h2 : st.resources.any (fun r => r.id == rid) = true
      · rw [if_pos h2]
        cases hco : checkOverlap st.reservations rid s e none with
        | conflict => rfl
        | ok =>
            exfalso
            apply hn
            refine ⟨not_le.mp h1, ?_, hco⟩
            rcases List.any_eq_true.mp h2 with ⟨r, hr, hb⟩
            exact ⟨r, hr, beq_iff_eq.mp hb⟩
      · rw [if_neg h2]

/-- Witness for C3: a zero-length booking request on a concrete state
fails with InvalidRange and changes nothing. -/
theorem book_validation_and_insertion_witness :
    book (CoState.mk [Resource.mk 1 7] [] 0) 1 10 500 500 =
      (Except.error TransitionError.invalidRange,
        CoState.mk [Resource.mk 1 7] [] 0) :=
  book_validation_and_insertion.1 (CoState.mk [Resource.mk 1 7] [] 0)
    1 10 500 500 (Nat.le_refl 500)

theorem move_error_unchanged (st : CoState) (resvId : Nat) (actor : Actor)
    (ns ne : Nat) :
    (move st resvId actor ns ne).1 = Except.ok () ∨
      (move st resvId actor ns ne).2 = st := by
  unfold move
  cases hfind : st.reservations.find? (fun r => r.id == resvId) with
  | none => exact Or.inr rfl
  | some r =>
      dsimp only
      by_cases hact : r.status = RStatus.active
      · rw [if_pos hact]
        by_cases hauth : actor.id = r.requester_id ∨ actor.isAdmin = true
        · rw [if_pos hauth]
          by_cases hrange : ne ≤ ns
          · rw [if_pos hrange]; exact Or.inr rfl
          · rw [if_neg hrange]
            cases hco :
                checkOverlap st.reservations r.resource_id ns ne (some resvId) with
            | conflict => exact Or.inr rfl
            | ok => exact Or.inl rfl
        · rw [if_neg hauth]; exact Or.inr rfl
      · rw [if_neg hact]; exact Or.inr rfl

/-- C4: a move on an active reservation by its owner or an admin
requires new_start < new_end; the conflict check excludes the moved
reservation itself, so when no other active reservation of the resource
overlaps the new range the move succeeds, even when the new range
overlaps the old range of the moved reservation; and whenever the result
is ScheduleConflict the whole state, in particular the stored range, is
unchanged. -/
theorem move_validation_and_atomicity :
    (∀ (st : CoState) (resvId : Nat) (actor : Actor) (ns ne : Nat)
        (r : Reservation),
        st.reservations.find? (fun q => q.id == resvId) = some r →
        r.status = RStatus.active →
        (actor.id = r.requester_id ∨ actor.isAdmin = true) →
        ne ≤ ns →
        move st resvId actor ns ne =
          (Except.error TransitionError.invalidRange, st)) ∧
    (∀ (st : CoState) (resvId : Nat) (actor : Actor) (ns ne : Nat)
        (r : Reservation),
        st.reservations.find? (fun q => q.id == resvId) = some r →
        r.status = RStatus.active →
        (actor.id = r.requester_id ∨ actor.isAdmin = true) →
        ns < ne →
        (∀ q, q ∈ st.reservations → q.status = RStatus.active →
          q.resource_id = r.resource_id → some resvId ≠ some q.id →
          ¬ (ns < q.end_time ∧ q.start_time < ne)) →
        move st resvId actor ns ne =
          (Except.ok (),
            { st with
                reservations := st.reservations.map (moveUpd resvId ns ne) })) ∧
    (∀ (st : CoState) (resvId : Nat) (actor : Actor) (ns ne : Nat),
        (move st resvId actor ns ne).1 =
            Except.error TransitionError.scheduleConflict →
        (move st resvId actor ns ne).2 = st) := by
  refine ⟨?_, ?_, ?_⟩
  · intro st resvId actor ns ne r hfind hact hauth hrange
    unfold move
    rw [hfind]
    dsimp only
    rw [if_pos hact, if_pos hauth, if_pos hrange]
  · intro st resvId actor ns ne r hfind hact hauth hrange hno
    unfold move
    rw [hfind]
    dsimp only
    rw [if_pos hact, if_pos hauth, if_neg (not_le.mpr hrange)]
    have hco : checkOverlap st.reservations r.resource_id ns ne (some resvId) =
        CheckResult.ok :=
      (checkOverlap_eq_ok_iff st.reservations r.resource_id ns ne
        (some resvId)).mpr hno
    rw [hco]
  · intro st resvId actor ns ne hconf
    rcases move_error_unchanged st resvId actor ns ne with h | h
    · rw [hconf] at h
      exact absurd h (by simp)
    · exact h

/-- Witness for C4: a single active reservation moved to a range that
overlaps only its own current range succeeds, yielding the updated
store. -/
theorem move_validation_and_atomicity_witness :
    move
        (CoState.mk [Resource.mk 1 7]
          [Reservation.mk 0 1 10 600 660 RStatus.active] 1)
        0 (Actor.mk 10 false) 630 690 =
      (Except.ok (),
        { CoState.mk [Resource.mk 1 7]
            [Reservation.mk 0 1 10 600 660 RStatus.active] 1 with
            reservations :=
              [Reservation.mk 0 1 10 600 660 RStatus.active].map
                (moveUpd 0 630 690) }) := by
  refine move_validation_and_atomicity.2.1
    (CoState.mk [Resource.mk 1 7]
      [Reservation.mk 0 1 10 600 660 RStatus.active] 1)
    0 (Actor.mk 10 false) 630 690
    (Reservation.mk 0 1 10 600 660 RStatus.active) rfl rfl (Or.inl rfl)
    (by decide) ?_
  intro q hq hst hres hne
  simp only [List.mem_singleton] at hq
  subst hq
  exact absurd rfl hne

theorem cancelUpd_of_other (resvId : Nat) (q : Reservation)
    (h : q.id ≠ resvId) : cancelUpd resvId q = q := by
  unfold cancelUpd; rw [if_neg h]

theorem cancelUpd_of_match (resvId : Nat) (q : Reservation)
    (h : q.id = resvId) :
    cancelUpd resvId q = { q with status := RStatus.cancelled } := by
  unfold cancelUpd; rw [if_pos h]

/-- C5: cancelling an active reservation as its requester or an admin
succeeds, keeps the record (same store length), rewrites only the
matched entry to status cancelled, and keeps every other reservation
unchanged; cancelling an already cancelled reservation fails with
InvalidState and changes nothing. -/
theorem cancel_state_transition :
    (∀ (st : CoState) (resvId : Nat) (actor : Actor) (r : Reservation),
        st.reservations.find? (fun q => q.id == resvId) = some r →
        r.status = RStatus.active →
        (actor.id = r.requester_id ∨ actor.isAdmin = true) →
        (cancel st resvId actor).1 = Except.ok () ∧
          (cancel st resvId actor).2.reservations.length =
            st.reservations.length ∧
          ({ r with status := RStatus.cancelled } ∈
            (cancel st resvId actor).2.reservations) ∧
          (∀ q, q ∈ st.reservations → q.id ≠ resvId →
            q ∈ (cancel st resvId actor).2.reservations)) ∧
    (∀ (st : CoState) (resvId : Nat) (actor : Actor) (r : Reservation),
        st.reservations.find? (fun q => q.id == resvId) = some r →
        r.status = RStatus.cancelled →
        (actor.id = r.requester_id ∨ actor.isAdmin = true) →
        cancel st resvId actor =
          (Except.error TransitionError.invalidState, st)) := by
  constructor
  · intro st resvId actor r hfind hact hauth
    have hrmem : r ∈ st.reservations := List.mem_of_find?_eq_some hfind
    have hrid : r.id = resvId := by
      have := List.find?_some hfind
      simpa using this
    have heq : cancel st resvId actor =
        (Except.ok (),
          { st with reservations := st.reservations.map (cancelUpd resvId) }) := by
      unfold cancel
      rw [hfind]
      dsimp only
      rw [if_pos hauth, hact]
    rw [heq]
    refine ⟨rfl, ?_, ?_, ?_⟩
    · exact List.length_map st.reservations (cancelUpd resvId)
    · have : cancelUpd resvId r = { r with status := RStatus.cancelled } :=
        cancelUpd_of_match resvId r hrid
      exact this ▸ List.mem_map_of_mem (cancelUpd resvId) hrmem
    · intro q hq hne
      have : cancelUpd resvId q = q := cancelUpd_of_other resvId q hne
      exact this ▸ List.mem_map_of_mem (cancelUpd resvId) hq
  · intro st resvId actor r hfind hcanc hauth
    unfold cancel
    rw [hfind]
    dsimp only
    rw [if_pos hauth, hcanc]

/-- Witness for C5: cancelling an already cancelled reservation at a
concrete store fails with InvalidState. -/
theorem cancel_state_transition_witness :
    cancel
        (CoState.mk [Resource.mk 1 7]
          [Reservation.mk 0 1 10 600 660 RStatus.cancelled] 1)
        0 (Actor.mk 10 false) =
      (Except.error TransitionError.invalidState,
        CoState.mk [Resource.mk 1 7]
          [Reservation.mk 0 1 10 600 660 RStatus.cancelled] 1) :=
  cancel_state_transition.2
    (CoState.mk [Resource.mk 1 7]
      [Reservation.mk 0 1 10 600 660 RStatus.cancelled] 1)
    0 (Actor.mk 10 false)
    (Reservation.mk 0 1 10 600 660 RStatus.cancelled) rfl rfl (Or.inl rfl)

theorem takeUpd_of_other (bid uid : Nat) (q : BookItem) (h : q.id ≠ bid) :
    takeUpd bid uid q = q := by
  unfold takeUpd; rw [if_neg h]

theorem takeUpd_of_match (bid uid : Nat) (q : BookItem) (h : q.id = bid) :
    takeUpd bid uid q =
      { q with is_available := false, taken_by := some uid } := by
  unfold takeUpd; rw [if_pos h]

/-- C6: take succeeds only when the book is available and the requester
is not its owner; a self-take fails with SelfTake, a take on an
unavailable book fails with AlreadyTaken, a successful take marks the
book unavailable with taken_by set to the requester, and no take ever
turns an unavailable book back into an available one. -/
theorem take_transition_rules :
    (∀ (bks : List BookItem) (bid uid : Nat) (b : BookItem),
        bks.find? (fun q => q.id == bid) = some b →
        b.is_available = true → uid = b.owner_id →
        take bks bid uid = (Except.error TransitionError.selfTake, bks)) ∧
    (∀ (bks : List BookItem) (bid uid : Nat) (b : BookItem),
        bks.find? (fun q => q.id == bid) = some b →
        b.is_available = false →
        take bks bid uid = (Except.error TransitionError.alreadyTaken, bks)) ∧
    (∀ (bks : List BookItem) (bid uid : Nat) (b : BookItem),
        bks.find? (fun q => q.id == bid) = some b →
        b.is_available = true → uid ≠ b.owner_id →
        (take bks bid uid).1 = Except.ok () ∧
          ({ b with is_available := false, taken_by := some uid } ∈
            (take bks bid uid).2) ∧
          (∀ q, q ∈ bks → q.id ≠ bid → q ∈ (take bks bid uid).2)) ∧
    (∀ (bks : List BookItem) (bid uid : Nat),
        (take bks bid uid).1 = Except.ok () →
        ∃ b, bks.find? (fun q => q.id == bid) = some b ∧
          b.is_available = true ∧ uid ≠ b.owner_id) ∧
    (∀ (bks : List BookItem) (bid uid : Nat) (q : BookItem),
        q ∈ (take bks bid uid).2 → q.is_available = true →
        ∃ q0, q0 ∈ bks ∧ q0.id = q.id ∧ q0.is_available = true) := by
  refine ⟨?_, ?_, ?_, ?_, ?_⟩
  · intro bks bid uid b hfind hav hself
    unfold take
    rw [hfind]
    dsimp only
    rw [if_neg (by simp [hav]), if_pos hself]
  · intro bks bid uid b hfind hunav
    unfold take
    rw [hfind]
    dsimp only
    rw [if_pos hunav]
  · intro bks bid uid b hfind hav hne
    have hbmem : b ∈ bks := List.mem_of_find?_eq_some hfind
    have hbid : b.id = bid := by
      have := List.find?_some hfind
      simpa using this
    have heq : take bks bid uid = (Except.ok (), bks.map (takeUpd bid uid)) := by
      unfold take
      rw [hfind]
      dsimp only
      rw [if_neg (by simp [hav]), if_neg hne]
    rw [heq]
    refine ⟨rfl, ?_, ?_⟩
    · have : takeUpd bid uid b =
          { b with is_available := false, taken_by := some uid } :=
        takeUpd_of_match bid uid b hbid
      exact this ▸ List.mem_map_of_mem (takeUpd bid uid) hbmem
    · intro q hq hqne
      have : takeUpd bid uid q = q := takeUpd_of_other bid uid q hqne
      exact this ▸ List.mem_map_of_mem (takeUpd bid uid) hq
  · intro bks bid uid hok
    unfold take at hok
    cases hfind : bks.find? (fun q => q.id == bid) with
    | none => rw [hfind] at hok; exact absurd hok (by simp)
    | some b =>
        rw [hfind] at hok
        dsimp only at hok
        by_cases hunav : b.is_available = false
        · rw [if_pos hunav] at hok
          exact absurd hok (by simp)
        · rw [if_neg hunav] at hok
          by_cases hself : uid = b.owner_id
          · rw [if_pos hself] at hok
            exact absurd hok (by simp)
          · exact ⟨b, rfl, eq_true_of_ne_false hunav, hself⟩
  · intro bks bid uid q hq hav
    unfold take at hq
    cases hfind : bks.find? (fun r => r.id == bid) with
    | none => rw [hfind] at hq; exact ⟨q, hq, rfl, hav⟩
    | some b =>
        rw [hfind] at hq
        dsimp only at hq
        by_cases hunav : b.is_available = false
        · rw [if_pos hunav] at hq
          exact ⟨q, hq, rfl, hav⟩
        · rw [if_neg hunav] at hq
          by_cases hself : uid = b.owner_id
          · rw [if_pos hself] at hq
            exact ⟨q, hq, rfl, hav⟩
          · rw [if_neg hself] at hq
            dsimp only at hq
            rcases List.mem_map.mp hq with ⟨q0, hq0, hupd⟩
            by_cases hmatch : q0.id = bid
            · rw [takeUpd_of_match bid uid q0 hmatch] at hupd
              rw [← hupd] at hav
              exact absurd hav (by simp)
            · rw [takeUpd_of_other bid uid q0 hmatch] at hupd
              refine ⟨q0, hq0, ?_, ?_⟩
              · rw [hupd]
              · rw [hupd]; exact hav

/-- Witness for C6: a self-take on a concrete available book fails with
SelfTake. -/
theorem take_transition_rules_witness :
    take [BookItem.mk 3 9 true none] 3 9 =
      (Except.error TransitionError.selfTake, [BookItem.mk 3 9 true none]) :=
  take_transition_rules.1 [BookItem.mk 3 9 true none] 3 9
    (BookItem.mk 3 9 true none) rfl rfl rfl

/-! ## Frontend route guards (coworking part_003 and book-variant
ProtectedRoute.jsx) -/

/-- What a route-guard component renders. -/
inductive RenderResult where
  | renderNothing
  | loadingView
  | navigateLogin
  | accessDenied
  | navigateBooks
  | childrenView
deriving DecidableEq, Repr

/-- From src/unnamed/part_003, AdminProtectedRoute: renders null while
loading, a Navigate to /login when not authenticated, an access-denied
message when not admin, and the children otherwise. -/
def AdminProtectedRoute (isLoading isAuthenticated isAdmin : Bool) :
    RenderResult :=
  if isLoading = true then RenderResult.renderNothing
  else if isAuthenticated = false then RenderResult.navigateLogin
  else if isAdmin = false then RenderResult.accessDenied
  else RenderResult.childrenView

/-- From src/frontend/src/components/ProtectedRoute.jsx: renders a
loading view while loading, a Navigate to /login when not authenticated,
a Navigate to /books when admin is required but the user role is not
admin, and the children otherwise. -/
def ProtectedRoute (loading isAuthenticated : Bool) (userRole : Option String)
    (requireAdmin : Bool) : RenderResult :=
  if loading = true then RenderResult.loadingView
  else if isAuthenticated = false then RenderResult.navigateLogin
  else if requireAdmin = true ∧ userRole ≠ some "admin" then
    RenderResult.navigateBooks
  else RenderResult.childrenView

/-- C7: both admin gates render their children exactly when the actor is
authenticated (and loading has finished) with the admin role; once
loading is over, an unauthenticated actor is sent to the login route and
an authenticated non-admin actor gets an access-denied message
(part_003) or a redirect away (ProtectedRoute.jsx with requireAdmin). -/
theorem admin_gate_rendering :
    (∀ l a adm : Bool,
        AdminProtectedRoute l a adm = RenderResult.childrenView ↔
          l = false ∧ a = true ∧ adm = true) ∧
    (∀ adm : Bool,
        AdminProtectedRoute false false adm = RenderResult.navigateLogin) ∧
    (AdminProtectedRoute false true false = RenderResult.accessDenied) ∧
    (∀ (l a : Bool) (role : Option String),
        ProtectedRoute l a role true = RenderResult.childrenView ↔
          l = false ∧ a = true ∧ role = some "admin") ∧
    (∀ role : Option String,
        ProtectedRoute false false role true = RenderResult.navigateLogin) ∧
    (∀ role : Option String, role ≠ some "admin" →
        ProtectedRoute false true role true = RenderResult.navigateBooks) := by
  refine ⟨?_, ?_, ?_, ?_, ?_, ?_⟩
  · intro l a adm
    cases l <;> cases a <;> cases adm <;> simp [AdminProtectedRoute]
  · intro adm
    rfl
  · rfl
  · intro l a role
    cases l <;> cases a <;>
      by_cases hrole : role = some "admin" <;>
        simp [ProtectedRoute, hrole]
  · intro role
    rfl
  · intro role hrole
    unfold ProtectedRoute
    rw [if_neg (by simp), if_neg (by simp), if_pos ⟨rfl, hrole⟩]

/-- Witness for C7: an authenticated user with no admin role is sent
away from the admin-gated view. -/
theorem admin_gate_rendering_witness :
    ProtectedRoute false true (some "user") true =
      RenderResult.navigateBooks :=
  admin_gate_rendering.2.2.2.2.2 (some "user") (by simp)

/-! ## Frontend booking and move request construction -/

/-- Body of a POST to /api/bookings as built by the coworking pages. -/
structure BookingRequest where
  place_id : Nat
  start_time : String
  end_time : String
deriving DecidableEq, Repr

/-- Body of a POST to /api/bookings/id/move as built by MyBookingsPage. -/
structure MoveRequest where
  start_time : String
  end_time : String
deriving DecidableEq, Repr

/-- JavaScript string less-than: lexicographic on code units. -/
def jsStrLt : List Char → List Char → Bool
  | [], [] => false
  | [], _ :: _ => true
  | _ :: _, [] => false
  | a :: as, b :: bs =>
      if a < b then true else if b < a then false else jsStrLt as bs

/-- From src/unnamed/part_002, handleBookingSubmit on PlacesListPage
(lines 220-259): aborts when a field is empty, otherwise sends
start_time = date + T + startTime and end_time = date + T + endTime,
both from the single date field. -/
def handleBookingSubmit (placeId : Nat)
    (bookingDate bookingStartTime bookingEndTime : String) :
    Option BookingRequest :=
  if bookingDate = "" ∨ bookingStartTime = "" ∨ bookingEndTime = "" then none
  else
    some (BookingRequest.mk placeId
      (bookingDate ++ "T" ++ bookingStartTime)
      (bookingDate ++ "T" ++ bookingEndTime))

/-- From src/unnamed/part_005, handleBookingSubmit on PlaceDetailPage
(lines 39-70): identical request construction from one date field. -/
def handleBookingSubmitDetail (placeId : Nat)
    (bookingDate bookingStartTime bookingEndTime : String) :
    Option BookingRequest :=
  if bookingDate = "" ∨ bookingStartTime = "" ∨ bookingEndTime = "" then none
  else
    some (BookingRequest.mk placeId
      (bookingDate ++ "T" ++ bookingStartTime)
      (bookingDate ++ "T" ++ bookingEndTime))

/-- From src/unnamed/part_001, handleMoveSubmit (lines 96-133): aborts
when a field is empty or startTime >= endTime as JS strings, otherwise
sends newStart = date + T + startTime and newEnd = date + T + endTime,
both from the single moveStart date field. -/
def handleMoveSubmit (moveStart moveStartTime moveEndTime : String) :
    Option MoveRequest :=
  if moveStart = "" ∨ moveStartTime = "" ∨ moveEndTime = "" then none
  else if jsStrLt moveStartTime.data moveEndTime.data then
    some (MoveRequest.mk
      (moveStart ++ "T" ++ moveStartTime)
      (moveStart ++ "T" ++ moveEndTime))
  else none

/-- The calendar-date component of a date-time string: the characters
before the first T separator. -/
def dateComponent (s : String) : String :=
  String.mk (s.data.takeWhile (fun c => c ≠ 'T'))

theorem takeWhile_append_sep (d t : List Char) :
    (d ++ 'T' :: t).takeWhile (fun c => decide (c ≠ 'T')) =
      d.takeWhile (fun c => decide (c ≠ 'T')) := by
  induction d with
  | nil => simp [List.takeWhile_cons]
  | cons a as ih =>
      simp only [List.cons_append, List.takeWhile_cons]
      by_cases h : a = 'T'
      · subst h
        simp
      · rw [if_pos (by simp [h]), if_pos (by simp [h]), ih]

theorem dateComponent_append (d t : String) :
    dateComponent (d ++ "T" ++ t) = dateComponent d := by
  unfold dateComponent
  have hdata : (d ++ "T" ++ t).data = d.data ++ 'T' :: t.data := by
    rw [String.data_append, String.data_append, List.append_assoc]
    rfl
  rw [hdata]
  exact congrArg String.mk (takeWhile_append_sep d.data t.data)

/-- C8: every booking or move request the coworking pages send has its
start_time and end_time built as date + T + time from one date field, so
the two fields always share the same calendar-date component. -/
theorem booking_requests_single_day :
    (∀ (pid : Nat) (d t1 t2 : String) (req : BookingRequest),
        handleBookingSubmit pid d t1 t2 = some req →
        dateComponent req.start_time = dateComponent req.end_time) ∧
    (∀ (pid : Nat) (d t1 t2 : String) (req : BookingRequest),
        handleBookingSubmitDetail pid d t1 t2 = some req →
        dateComponent req.start_time = dateComponent req.end_time) ∧
    (∀ (d t1 t2 : String) (req : MoveRequest),
        handleMoveSubmit d t1 t2 = some req →
        dateComponent req.start_time = dateComponent req.end_time) := by
  refine ⟨?_, ?_, ?_⟩
  · intro pid d t1 t2 req hreq
    unfold handleBookingSubmit at hreq
    by_cases hguard : d = "" ∨ t1 = "" ∨ t2 = ""
    · rw [if_pos hguard] at hreq
      exact absurd hreq (by simp)
    · rw [if_neg hguard] at hreq
      have hreq2 := Option.some.inj hreq
      rw [← hreq2]
      rw [dateComponent_append d t1, dateComponent_append d t2]
  · intro pid d t1 t2 req hreq
    unfold handleBookingSubmitDetail at hreq
    by_cases hguard : d = "" ∨ t1 = "" ∨ t2 = ""
    · rw [if_pos hguard] at hreq
      exact absurd hreq (by simp)
    · rw [if_neg hguard] at hreq
      have hreq2 := Option.some.inj hreq
      rw [← hreq2]
      rw [dateComponent_append d t1, dateComponent_append d t2]
  · intro d t1 t2 req hreq
    unfold handleMoveSubmit at hreq
    by_cases hguard : d = "" ∨ t1 = "" ∨ t2 = ""
    · rw [if_pos hguard] at hreq
      exact absurd hreq (by simp)
    · rw [if_neg hguard] at hreq
      by_cases hlt : jsStrLt t1.data t2.data = true
      · rw [if_pos hlt] at hreq
        have hreq2 := Option.some.inj hreq
        rw [← hreq2]
        rw [dateComponent_append d t1, dateComponent_append d t2]
      · rw [if_neg hlt] at hreq
        exact absurd hreq (by simp)

/-- Witness for C8: a concrete booking request shares one calendar
date across both time fields. -/
theorem booking_requests_single_day_witness :
    dateComponent
        (BookingRequest.mk 4 "2024-01-15T10:00" "2024-01-15T11:00").start_time =
      dateComponent
        (BookingRequest.mk 4 "2024-01-15T10:00" "2024-01-15T11:00").end_time :=
  booking_requests_single_day.1 4 "2024-01-15" "10:00" "11:00"
    (BookingRequest.mk 4 "2024-01-15T10:00" "2024-01-15T11:00") (by decide)

/-! ## Coworking AuthContext (src/unnamed/part_001, AuthProvider) -/

/-- The user record the coworking auth context keeps. -/
structure UserData where
  id : Nat
  is_admin : Bool
deriving DecidableEq, Repr

/-- State of AuthProvider: the React state (user, authHeader, isLoading,
error) together with the two persisted localStorage entries. -/
structure AuthState where
  user : Option UserData
  authHeader : Option String
  storedUser : Option UserData
  storedAuthHeader : Option String
  isLoading : Bool
  error : Option String
deriving DecidableEq, Repr

/-- The isAuthenticated value the provider exposes: !!user. -/
def isAuthenticated (st : AuthState) : Bool :=
  st.user.isSome

/-- Outcome of the fetch performed by login. -/
inductive LoginResponse where
  | okBody (userData : UserData)
  | errorBody (message : Option String)
  | thrown
deriving DecidableEq, Repr

/-- From src/unnamed/part_001, AuthProvider.login (lines 215-258): on an
OK response, user / authHeader and both localStorage entries are set and
true is returned; on a non-OK response or a thrown error, an error
message is set, user and authHeader become null, both localStorage
entries are removed, and false is returned. -/
def login (st : AuthState) (basicAuthHeader : String) (resp : LoginResponse) :
    Bool × AuthState :=
  match resp with
  | LoginResponse.okBody userData =>
      (true,
        { st with
            user := some userData,
            authHeader := some basicAuthHeader,
            storedUser := some userData,
            storedAuthHeader := some basicAuthHeader,
            isLoading := false,
            error := none })
  | LoginResponse.errorBody message =>
      (false,
        { st with
            user := none,
            authHeader := none,
            storedUser := none,
            storedAuthHeader := none,
            isLoading := false,
            error := some (message.getD "login status error") })
  | LoginResponse.thrown =>
      (false,
        { st with
            user := none,
            authHeader := none,
            storedUser := none,
            storedAuthHeader := none,
            isLoading := false,
            error := some "connection error" })

/-- From src/unnamed/part_001, AuthProvider.logout (lines 260-265):
clears user and authHeader and removes both localStorage entries. -/
def logout (st : AuthState) : AuthState :=
  { st with
      user := none,
      authHeader := none,
      storedUser := none,
      storedAuthHeader := none }

/-- C9: isAuthenticated is true exactly when user is non-null; a non-OK
response and a thrown error both make login return false; every login
returning false, and every logout, leaves user, authHeader and both
persisted localStorage entries cleared — no partial credentials
remain. -/
theorem auth_context_credential_consistency :
    (∀ st : AuthState, isAuthenticated st = true ↔ st.user ≠ none) ∧
    (∀ (st : AuthState) (hdr : String) (message : Option String),
        (login st hdr (LoginResponse.errorBody message)).1 = false ∧
          (login st hdr LoginResponse.thrown).1 = false) ∧
    (∀ (st : AuthState) (hdr : String) (resp : LoginResponse),
        (login st hdr resp).1 = false →
          (login st hdr resp).2.user = none ∧
          (login st hdr resp).2.authHeader = none ∧
          (login st hdr resp).2.storedUser = none ∧
          (login st hdr resp).2.storedAuthHeader = none) ∧
    (∀ st : AuthState,
        (logout st).user = none ∧ (logout st).authHeader = none ∧
          (logout st).storedUser = none ∧
          (logout st).storedAuthHeader = none) := by
  refine ⟨?_, ?_, ?_, ?_⟩
  · intro st
    cases h : st.user <;> simp [isAuthenticated, h]
  · intro st hdr message
    exact ⟨rfl, rfl⟩
  · intro st hdr resp hfail
    cases resp with
    | okBody userData => exact absurd hfail (by simp [login])
    | errorBody message => exact ⟨rfl, rfl, rfl, rfl⟩
    | thrown => exact ⟨rfl, rfl, rfl, rfl⟩
  · intro st
    exact ⟨rfl, rfl, rfl, rfl⟩

/-- Witness for C9: a failed login wipes a previously full credential
state. -/
theorem auth_context_credential_consistency_witness :
    (login
        (AuthState.mk (some (UserData.mk 1 true)) (some "Basic x")
          (some (UserData.mk 1 true)) (some "Basic x") false none)
        "Basic y" (LoginResponse.errorBody none)).2.user = none ∧
      (login
        (AuthState.mk (some (UserData.mk 1 true)) (some "Basic x")
          (some (UserData.mk 1 true)) (some "Basic x") false none)
        "Basic y" (LoginResponse.errorBody none)).2.authHeader = none ∧
      (login
        (AuthState.mk (some (UserData.mk 1 true)) (some "Basic x")
          (some (UserData.mk 1 true)) (some "Basic x") false none)
        "Basic y" (LoginResponse.errorBody none)).2.storedUser = none ∧
      (login
        (AuthState.mk (some (UserData.mk 1 true)) (some "Basic x")
          (some (UserData.mk 1 true)) (some "Basic x") false none)
        "Basic y" (LoginResponse.errorBody none)).2.storedAuthHeader = none :=
  auth_context_credential_consistency.2.2.1
    (AuthState.mk (some (UserData.mk 1 true)) (some "Basic x")
      (some (UserData.mk 1 true)) (some "Basic x") false none)
    "Basic y" (LoginResponse.errorBody none) rfl

/-! ## Date formatting utilities (book-variant dateUtils) -/

/-- A JavaScript value as the formatting utilities receive it. -/
inductive JSVal where
  | jsNull
  | jsUndefined
  | jsString (s : String)
deriving DecidableEq, Repr

/-- From src/dpolyakovfinalproject/frontend/src (dateUtils, lines 64-79
of the bundled source): formatDate returns Unknown on falsy input,
Invalid Date when parsing yields NaN, and the locale date string
otherwise.  Host date parsing and locale formatting are passed as
functions: parse returns none exactly when getTime() is NaN. -/
def formatDate (parse : String → Option Nat)
    (localeDateString : Nat → String) : JSVal → String
  | JSVal.jsNull => "Unknown"
  | JSVal.jsUndefined => "Unknown"
  | JSVal.jsString s =>
      if s = "" then "Unknown"
      else
        match parse s with
        | none => "Invalid Date"
        | some d => localeDateString d

/-- From the same file (lines 82-96): formatDateTime is identical except
that it formats with the locale date-time function. -/
def formatDateTime (parse : String → Option Nat)
    (localeString : Nat → String) : JSVal → String
  | JSVal.jsNull => "Unknown"
  | JSVal.jsUndefined => "Unknown"
  | JSVal.jsString s =>
      if s = "" then "Unknown"
      else
        match parse s with
        | none => "Invalid Date"
        | some d => localeString d

/-- C10: formatDate and formatDateTime are total functions of their
input — null, undefined and the empty string give Unknown, a non-empty
string that fails to parse gives Invalid Date, and a parsable string
gives its locale formatting; no input produces anything else. -/
theorem formatDate_total_cases :
    (∀ (parse : String → Option Nat) (fmt : Nat → String),
        formatDate parse fmt JSVal.jsNull = "Unknown" ∧
        formatDate parse fmt JSVal.jsUndefined = "Unknown" ∧
        formatDate parse fmt (JSVal.jsString "") = "Unknown") ∧
    (∀ (parse : String → Option Nat) (fmt : Nat → String) (s : String),
        s ≠ "" → parse s = none →
        formatDate parse fmt (JSVal.jsString s) = "Invalid Date") ∧
    (∀ (parse : String → Option Nat) (fmt : Nat → String) (s : String)
        (d : Nat), s ≠ "" → parse s = some d →
        formatDate parse fmt (JSVal.jsString s) = fmt d) ∧
    (∀ (parse : String → Option Nat) (fmt : Nat → String) (v : JSVal),
        formatDate parse fmt v = "Unknown" ∨
          formatDate parse fmt v = "Invalid Date" ∨
          ∃ d, formatDate parse fmt v = fmt d) ∧
    (∀ (parse : String → Option Nat) (fmt : Nat → String),
        formatDateTime parse fmt JSVal.jsNull = "Unknown" ∧
        formatDateTime parse fmt JSVal.jsUndefined = "Unknown" ∧
        formatDateTime parse fmt (JSVal.jsString "") = "Unknown") ∧
    (∀ (parse : String → Option Nat) (fmt : Nat → String) (s : String),
        s ≠ "" → parse s = none →
        formatDateTime parse fmt (JSVal.jsString s) = "Invalid Date") ∧
    (∀ (parse : String → Option Nat) (fmt : Nat → String) (s : String)
        (d : Nat), s ≠ "" → parse s = some d →
        formatDateTime parse fmt (JSVal.jsString s) = fmt d) := by
  refine ⟨?_, ?_, ?_, ?_, ?_, ?_, ?_⟩
  · intro parse fmt
    exact ⟨rfl, rfl, rfl⟩
  · intro parse fmt s hs hparse
    unfold formatDate
    dsimp only
    rw [if_neg hs, hparse]
  · intro parse fmt s d hs hparse
    unfold formatDate
    dsimp only
    rw [if_neg hs, hparse]
  · intro parse fmt v
    cases v with
    | jsNull => exact Or.inl rfl
    | jsUndefined => exact Or.inl rfl
    | jsString s =>
        unfold formatDate
        dsimp only
        by_cases hs : s = ""
        · rw [if_pos hs]; exact Or.inl rfl
        · rw [if_neg hs]
          cases hparse : parse s with
          | none => exact Or.inr (Or.inl rfl)
          | some d => exact Or.inr (Or.inr ⟨d, rfl⟩)
  · intro parse fmt
    exact ⟨rfl, rfl, rfl⟩
  · intro parse fmt s hs hparse
    unfold formatDateTime
    dsimp only
    rw [if_neg hs, hparse]
  · intro parse fmt s d hs hparse
    unfold formatDateTime
    dsimp only
    rw [if_neg hs, hparse]

/-- Witness for C10: a concrete unparsable non-empty string yields
Invalid Date. -/
theorem formatDate_total_cases_witness :
    formatDate (fun _ => none) (fun _ => "x") (JSVal.jsString "garbage") =
      "Invalid Date" :=
  formatDate_total_cases.2.1 (fun _ => none) (fun _ => "x") "garbage"
    (by decide) rfl

end Chechel
